import Mathlib

/-!
Shallow embedding of the Happiness Reserve server routes (src/shared/schema.ts:
the drizzle table declarations and the express route handlers in
`registerRoutes`).  Timestamps are modelled as integers (days since an
arbitrary epoch); database rows are records in Lean structures; each table is a
`List` of rows in insertion order; the `Math.random()` pick in the surfacing
handlers is modelled by an arbitrary natural number reduced modulo the number
of candidates.
-/

namespace HappinessReserve

/-- Timestamps (and the day arithmetic done on them) are modelled as integers. -/
abbrev Time := Int

/-- Row of the `deposits` table. -/
structure Deposit where
  id : String
  content : String
  emotion : Option String
  mediaUri : Option String
  mediaType : Option String
  tags : List String
  lastSurfacedAt : Option Time
  status : Int
  createdAt : Time
deriving DecidableEq

/-- Payload accepted by `insertDepositSchema` (the schema omits only `id` and
`createdAt`, so a caller may supply `status` and `lastSurfacedAt`). -/
structure InsertDeposit where
  content : String
  emotion : Option String := none
  mediaUri : Option String := none
  mediaType : Option String := none
  tags : Option (List String) := none
  lastSurfacedAt : Option Time := none
  status : Option Int := none
deriving DecidableEq

/-- POST /api/deposits: inserts `{ ...result.data, status: 0 }`, overriding
any `status` the caller sent; `tags` defaults to the empty array. -/
def createDeposit (input : InsertDeposit) (newId : String) (now : Time) : Deposit :=
  { id := newId
    content := input.content
    emotion := input.emotion
    mediaUri := input.mediaUri
    mediaType := input.mediaType
    tags := input.tags.getD []
    lastSurfacedAt := input.lastSurfacedAt
    status := 0
    createdAt := now }

/-- Ordering used by `orderBy(desc(deposits.createdAt))`: a row comes before
another when its `createdAt` is at least as large (newest first). -/
def newerFirst (a b : Deposit) : Prop := b.createdAt ≤ a.createdAt

instance : DecidableRel newerFirst := fun a b =>
  inferInstanceAs (Decidable (b.createdAt ≤ a.createdAt))

instance : IsTotal Deposit newerFirst :=
  ⟨fun a b => (Int.le_total a.createdAt b.createdAt).symm⟩

instance : IsTrans Deposit newerFirst :=
  ⟨fun _ _ _ hab hbc => le_trans hbc hab⟩

/-- GET /api/deposits: all rows when `includeInactive`, otherwise the rows with
`status ≠ -1`, ordered by `createdAt` descending. -/
def listDeposits (includeInactive : Bool) (ds : List Deposit) : List Deposit :=
  let base := if includeInactive then ds else ds.filter (fun d => d.status != -1)
  base.insertionSort newerFirst

/-- GET /api/deposits/surface: the rows with `status == 0` whose id is not in
the exclusion list. -/
def eligibleDeposits (ds : List Deposit) (excludeIds : List String) : List Deposit :=
  ds.filter (fun d => d.status == 0 && !(excludeIds.contains d.id))

/-- GET /api/deposits/surface: `null` when no candidate is eligible, otherwise
the candidate at index `Math.floor(Math.random() * length)`, modelled by an
arbitrary natural number `k` reduced modulo the number of candidates. -/
def surfaceDeposit (ds : List Deposit) (excludeIds : List String) (k : Nat) :
    Option Deposit :=
  let elig := eligibleDeposits ds excludeIds
  elig.get? (k % elig.length)

/-- PATCH /api/deposits/:id: the `content`, `emotion` and `tags` of the row are
overwritten by whichever of the three body fields are present. -/
def applyDepositUpdate (c : Option String) (e : Option (Option String))
    (t : Option (List String)) (d : Deposit) : Deposit :=
  { d with
    content := c.getD d.content
    emotion := e.getD d.emotion
    tags := t.getD d.tags }

/-- PATCH /api/deposits/:id: updates every row whose id matches (at most one,
ids being the primary key) and returns the updated row, `none` meaning the 404
path was taken. -/
def updateDeposit (targetId : String) (c : Option String) (e : Option (Option String))
    (t : Option (List String)) (ds : List Deposit) : List Deposit × Option Deposit :=
  let newDs := ds.map (fun d => if d.id == targetId then applyDepositUpdate c e t d else d)
  (newDs, (newDs.filter (fun d => d.id == targetId)).head?)

/-- PATCH /api/deposits/:id/status: stores the number sent by the caller as the new
`status` of the matching row, with no range check beyond being a number. -/
def setDepositStatus (targetId : String) (newStatus : Int) (ds : List Deposit) :
    List Deposit × Option Deposit :=
  let newDs := ds.map (fun d => if d.id == targetId then { d with status := newStatus } else d)
  (newDs, (newDs.filter (fun d => d.id == targetId)).head?)

/-- DELETE /api/deposits/:id: soft delete, `set({ status: -1 })`. -/
def softDeleteDeposit (targetId : String) (ds : List Deposit) :
    List Deposit × Option Deposit :=
  setDepositStatus targetId (-1) ds

/-- PATCH /api/deposits/:id/surface: one update setting
`lastSurfacedAt = new Date()` and `status = 30` together. -/
def markSurfacedDeposit (targetId : String) (now : Time) (ds : List Deposit) :
    List Deposit × Option Deposit :=
  let newDs := ds.map (fun d =>
    if d.id == targetId then { d with lastSurfacedAt := some now, status := 30 } else d)
  (newDs, (newDs.filter (fun d => d.id == targetId)).head?)

/-- Public state-changing (or read-only, for `surface`) operations on the
`deposits` table, one constructor per route handler. -/
inductive DepositOp where
  | create (input : InsertDeposit) (newId : String) (now : Time)
  | update (targetId : String) (c : Option String) (e : Option (Option String))
      (t : Option (List String))
  | setStatus (targetId : String) (newStatus : Int)
  | softDelete (targetId : String)
  | markSurfaced (targetId : String) (now : Time)
  | surface (excludeIds : List String) (k : Nat)
deriving DecidableEq

/-- Effect of one route handler on the `deposits` table. -/
def applyDepositOp (op : DepositOp) (ds : List Deposit) : List Deposit :=
  match op with
  | .create input newId now => ds ++ [createDeposit input newId now]
  | .update targetId c e t => (updateDeposit targetId c e t ds).1
  | .setStatus targetId newStatus => (setDepositStatus targetId newStatus ds).1
  | .softDelete targetId => (softDeleteDeposit targetId ds).1
  | .markSurfaced targetId now => (markSurfacedDeposit targetId now ds).1
  | .surface _ _ => ds

/-- Effect of a sequence of route handlers on the `deposits` table. -/
def applyDepositOps (ops : List DepositOp) (ds : List Deposit) : List Deposit :=
  ops.foldl (fun s op => applyDepositOp op s) ds

/-- Membership in {-1} ∪ {0} ∪ positive integers. -/
def statusOk (s : Int) : Prop := -1 ≤ s

instance : DecidablePred statusOk := fun s =>
  inferInstanceAs (Decidable (-1 ≤ s))

/-- States that the payload of an operation keeps `status` inside
{-1} ∪ {0} ∪ positive integers (only `setStatus` carries a payload status). -/
def opStatusOk (op : DepositOp) : Prop :=
  match op with
  | .setStatus _ newStatus => statusOk newStatus
  | _ => True

/-- Error results of the route handlers, by HTTP status code. -/
inductive ApiError where
  | notFound
  | badRequest
  | forbidden
deriving DecidableEq

/-- Row of the `connections` table. -/
structure Connection where
  id : String
  userId : String
  connectedUserId : String
  status : String
  createdAt : Time
  acceptedAt : Option Time
deriving DecidableEq

/-- Row of the `circle_invites` table. -/
structure CircleInvite where
  id : String
  senderId : String
  inviteType : String
  inviteValue : Option String
  inviteCode : String
  status : String
  createdAt : Time
  expiresAt : Option Time
deriving DecidableEq

/-- State touched by the circle-invite and connection handlers. -/
structure CircleState where
  invites : List CircleInvite
  conns : List Connection
deriving DecidableEq

/-- POST /api/circle/invites/:code/accept: looks the invite up by code, rejects
used invites, self accepts and already-connected pairs, then inserts one
`accepted` row per direction and marks the invite accepted.  `id1`/`id2` stand
for the generated primary keys of the two new rows. -/
def acceptInvite (code userId id1 id2 : String) (now : Time) (st : CircleState) :
    CircleState × Except ApiError Connection :=
  match (st.invites.filter (fun i => i.inviteCode == code)).head? with
  | none => (st, .error .notFound)
  | some invite =>
    if invite.status != "pending" then (st, .error .badRequest)
    else if invite.senderId == userId then (st, .error .badRequest)
    else if st.conns.any (fun c =>
        (c.userId == invite.senderId && c.connectedUserId == userId) ||
        (c.userId == userId && c.connectedUserId == invite.senderId)) then
      (st, .error .badRequest)
    else
      let c1 : Connection :=
        { id := id1, userId := invite.senderId, connectedUserId := userId
          status := "accepted", createdAt := now, acceptedAt := some now }
      let c2 : Connection :=
        { id := id2, userId := userId, connectedUserId := invite.senderId
          status := "accepted", createdAt := now, acceptedAt := some now }
      let invites' := st.invites.map (fun i =>
        if i.id == invite.id then { i with status := "accepted" } else i)
      (⟨invites', st.conns ++ [c1, c2]⟩, .ok c1)

/-- DELETE /api/circle/connections/:id: looks the row up by id, then deletes
every row between the same two users in either direction. -/
def removeConnection (connId : String) (st : CircleState) :
    CircleState × Except ApiError Unit :=
  match (st.conns.filter (fun c => c.id == connId)).head? with
  | none => (st, .error .notFound)
  | some c =>
    (⟨st.invites, st.conns.filter (fun c2 =>
        !((c2.userId == c.userId && c2.connectedUserId == c.connectedUserId) ||
          (c2.userId == c.connectedUserId && c2.connectedUserId == c.userId)))⟩,
      .ok ())

/-- Existence of a directional connection row from `u` to `v`. -/
def connBetween (cs : List Connection) (u v : String) : Prop :=
  ∃ c ∈ cs, c.userId = u ∧ c.connectedUserId = v

/-- The two directional rows between a pair of users both exist or neither
does. -/
def pairInvariant (cs : List Connection) : Prop :=
  ∀ u v, connBetween cs u v ↔ connBetween cs v u

/-- Row of the `shared_deposits` table. -/
structure SharedDeposit where
  id : String
  senderId : String
  receiverId : String
  content : String
  emotion : Option String
  mediaUri : Option String
  mediaType : Option String
  tags : List String
  status : Int
  lastSurfacedAt : Option Time
  createdAt : Time
deriving DecidableEq

/-- Payload accepted by `insertSharedDepositSchema` (the schema omits `id`,
`createdAt` and `lastSurfacedAt`, so a caller may supply `status`). -/
structure InsertSharedDeposit where
  senderId : String
  receiverId : String
  content : String
  emotion : Option String := none
  mediaUri : Option String := none
  mediaType : Option String := none
  tags : Option (List String) := none
  status : Option Int := none
deriving DecidableEq

/-- Row built by POST /api/circle/shared-deposits:
`{ ...result.data, status: 0 }`, overriding any `status` the caller sent. -/
def mkSharedDeposit (input : InsertSharedDeposit) (newId : String) (now : Time) :
    SharedDeposit :=
  { id := newId
    senderId := input.senderId
    receiverId := input.receiverId
    content := input.content
    emotion := input.emotion
    mediaUri := input.mediaUri
    mediaType := input.mediaType
    tags := input.tags.getD []
    status := 0
    lastSurfacedAt := none
    createdAt := now }

/-- POST /api/circle/shared-deposits: rejected with 403 and no insert unless an
`accepted` connection row exists from sender to receiver; otherwise the new row
is inserted with `status = 0`. -/
def shareDeposit (input : InsertSharedDeposit) (conns : List Connection)
    (sds : List SharedDeposit) (newId : String) (now : Time) :
    List SharedDeposit × Except ApiError SharedDeposit :=
  if conns.any (fun c =>
      c.userId == input.senderId && c.connectedUserId == input.receiverId &&
      c.status == "accepted") then
    let sd := mkSharedDeposit input newId now
    (sds ++ [sd], .ok sd)
  else
    (sds, .error .forbidden)

/-- Row of the `shared_deposit_usage` table. -/
structure SharedDepositUsage where
  id : String
  sharedDepositId : String
  usedAt : Time
  helpful : Option Bool
deriving DecidableEq

/-- Response of GET /api/circle/summary/:userId. -/
structure SummaryResult where
  totalUses : Nat
  helpfulUses : Nat
  weeks : Int
deriving DecidableEq

/-- Evaluation of `parseInt(req.query.weeks as string) || 2`: a missing or
unparsable parameter (NaN) and an explicit 0 both fall back to 2; every other
integer, negative ones included, is used as-is. -/
def effectiveWeeks (w : Option Int) : Int :=
  match w with
  | none => 2
  | some n => if n = 0 then 2 else n

/-- GET /api/circle/summary/:userId: collects the ids of the shared deposits
sent by the user; with none, answers zero counts at once; otherwise counts the
usage rows of those ids dated on or after `now - weeksBack*7` days, and among
them the ones with `helpful == true`. -/
def senderSummary (userId : String) (weeksParam : Option Int) (now : Time)
    (sds : List SharedDeposit) (usages : List SharedDepositUsage) : SummaryResult :=
  let weeksBack := effectiveWeeks weeksParam
  let cutoffDate := now - weeksBack * 7
  let depositIds := (sds.filter (fun s => s.senderId == userId)).map (fun s => s.id)
  if depositIds.isEmpty then
    { totalUses := 0, helpfulUses := 0, weeks := weeksBack }
  else
    let us := usages.filter (fun u =>
      depositIds.contains u.sharedDepositId && decide (cutoffDate ≤ u.usedAt))
    { totalUses := us.length
      helpfulUses := (us.filter (fun u => u.helpful == some true)).length
      weeks := weeksBack }

/-! Sample rows used by the witness theorems. -/

/-- Sample active deposit (status 0). -/
def dActive : Deposit :=
  { id := "d1", content := "sunny", emotion := none, mediaUri := none,
    mediaType := none, tags := [], lastSurfacedAt := none, status := 0,
    createdAt := 1 }

/-- Sample deposit in cooldown (status 5). -/
def dCooldown : Deposit := { dActive with id := "d2", status := 5, createdAt := 2 }

/-- Sample soft-deleted deposit (status -1). -/
def dInactive : Deposit := { dActive with id := "d3", status := -1, createdAt := 3 }

/-- Second sample active deposit. -/
def dOther : Deposit := { dActive with id := "d4" }

/-- Sample accepted connection row from u1 to u2. -/
def cAccepted : Connection :=
  { id := "c0", userId := "u1", connectedUserId := "u2", status := "accepted",
    createdAt := 0, acceptedAt := some 0 }

/-- Sample shared-deposit payload whose caller tries to smuggle a status in. -/
def sInput : InsertSharedDeposit :=
  { senderId := "u1", receiverId := "u2", content := "hi", status := some 99 }

/-- Sample pending invite sent by u1. -/
def inv1 : CircleInvite :=
  { id := "i1", senderId := "u1", inviteType := "link", inviteValue := none,
    inviteCode := "code1", status := "pending", createdAt := 0, expiresAt := none }

/-- Sample circle state holding one pending invite and no connections. -/
def st1 : CircleState := { invites := [inv1], conns := [] }

/-- Connection row created in the sender-to-accepter direction by the sample
accept. -/
def cRow1 : Connection :=
  { id := "c1", userId := "u1", connectedUserId := "u2", status := "accepted",
    createdAt := 5, acceptedAt := some 5 }

/-- Connection row created in the accepter-to-sender direction by the sample
accept. -/
def cRow2 : Connection :=
  { id := "c2", userId := "u2", connectedUserId := "u1", status := "accepted",
    createdAt := 5, acceptedAt := some 5 }

/-- Circle state produced by accepting the sample invite. -/
def st2 : CircleState :=
  { invites := [{ inv1 with status := "accepted" }], conns := [cRow1, cRow2] }

/-- Sample shared deposit sent by u1. -/
def sdSample : SharedDeposit := mkSharedDeposit sInput "s1" 3

/-- Sample usage row for the sample shared deposit. -/
def usageSample : SharedDepositUsage :=
  { id := "g1", sharedDepositId := "s1", usedAt := 50, helpful := some true }

instance : DecidablePred opStatusOk := fun op => by
  cases op <;> simp only [opStatusOk] <;> infer_instance

deriving instance DecidableEq for Except

/-! Helper lemmas shared by the claim theorems. -/

theorem mem_eligibleDeposits {ds : List Deposit} {ex : List String} {d : Deposit} :
    d ∈ eligibleDeposits ds ex ↔ d ∈ ds ∧ d.status = 0 ∧ d.id ∉ ex := by
  simp [eligibleDeposits, List.mem_filter, List.elem_iff, and_assoc]

theorem surfaceDeposit_eq_none_iff {ds : List Deposit} {ex : List String} {k : Nat} :
    surfaceDeposit ds ex k = none ↔ eligibleDeposits ds ex = [] := by
  unfold surfaceDeposit
  rw [List.get?_eq_none]
  constructor
  · intro h
    rcases Nat.eq_zero_or_pos (eligibleDeposits ds ex).length with h0 | hpos
    · exact List.length_eq_zero.mp h0
    · exact absurd h (Nat.not_le.mpr (Nat.mod_lt _ hpos))
  · intro h
    simp [h]

theorem surfaceDeposit_mem {ds : List Deposit} {ex : List String} {k : Nat}
    {d : Deposit} (h : surfaceDeposit ds ex k = some d) :
    d ∈ eligibleDeposits ds ex := by
  unfold surfaceDeposit at h
  exact List.get?_mem h

/-- C2: `surface(excludeIds)` returns none exactly when no deposit has
status 0 and id outside the exclusion list; any deposit it returns is a stored
deposit with status 0 whose id is not excluded. -/
theorem surface_returns_eligible (ds : List Deposit) (ex : List String) (k : Nat) :
    (surfaceDeposit ds ex k = none ↔ ∀ d ∈ ds, ¬(d.status = 0 ∧ d.id ∉ ex)) ∧
    (∀ d, surfaceDeposit ds ex k = some d → d ∈ ds ∧ d.status = 0 ∧ d.id ∉ ex) := by
  constructor
  · rw [surfaceDeposit_eq_none_iff, List.eq_nil_iff_forall_not_mem]
    simp only [mem_eligibleDeposits]
    constructor
    · intro h d hd hc
      exact h d ⟨hd, hc.1, hc.2⟩
    · intro h d hc
      exact h d hc.1 ⟨hc.2.1, hc.2.2⟩
  · intro d h
    exact mem_eligibleDeposits.mp (surfaceDeposit_mem h)

/-- Witness for C2 at a concrete store. -/
theorem surface_returns_eligible_witness :
    dActive ∈ [dActive, dCooldown, dInactive] ∧ dActive.status = 0 ∧
      dActive.id ∉ ([] : List String) :=
  (surface_returns_eligible [dActive, dCooldown, dInactive] [] 0).2 dActive (by decide)

theorem markSurfaced_sets_fields {ds : List Deposit} {targetId : String} {now : Time} :
    ∀ d ∈ (markSurfacedDeposit targetId now ds).1, d.id = targetId →
      d.status = 30 ∧ d.lastSurfacedAt = some now := by
  intro d hd hid
  simp only [markSurfacedDeposit, List.mem_map] at hd
  obtain ⟨a, _, rfl⟩ := hd
  by_cases hcase : a.id = targetId
  · simp [hcase]
  · simp [hcase] at hid

/-- C3: marking a deposit surfaced sets `lastSurfacedAt = now` and
`status = 30` in the one update, and immediately afterwards surfacing with an
empty exclusion list can never return that id. -/
theorem markSurfaced_cooldown (ds : List Deposit) (targetId : String) (now : Time)
    (hex : ∃ d ∈ ds, d.id = targetId) :
    (∃ d ∈ (markSurfacedDeposit targetId now ds).1,
        d.id = targetId ∧ d.status = 30 ∧ d.lastSurfacedAt = some now) ∧
    (∀ d ∈ (markSurfacedDeposit targetId now ds).1, d.id = targetId →
        d.status = 30 ∧ d.lastSurfacedAt = some now) ∧
    (∀ k d, surfaceDeposit (markSurfacedDeposit targetId now ds).1 [] k = some d →
        d.id ≠ targetId) := by
  refine ⟨?_, markSurfaced_sets_fields, ?_⟩
  · obtain ⟨d, hd, hid⟩ := hex
    refine ⟨{ d with lastSurfacedAt := some now, status := 30 }, ?_, hid, rfl, rfl⟩
    simp only [markSurfacedDeposit, List.mem_map]
    exact ⟨d, hd, by simp [hid]⟩
  · intro k d hsurf hid
    have hmem := mem_eligibleDeposits.mp (surfaceDeposit_mem hsurf)
    have := markSurfaced_sets_fields d hmem.1 hid
    rw [this.1] at hmem
    exact absurd hmem.2.1 (by decide)

/-- Witness for C3 at a concrete store holding two active deposits. -/
theorem markSurfaced_cooldown_witness : dOther.id ≠ "d1" :=
  (markSurfaced_cooldown [dActive, dOther] "d1" 10 (by decide)).2.2 0 dOther (by decide)

theorem applyDepositOp_status {op : DepositOp} {ds : List Deposit}
    (h0 : ∀ d ∈ ds, statusOk d.status) (hop : opStatusOk op) :
    ∀ d ∈ applyDepositOp op ds, statusOk d.status := by
  intro d hd
  cases op with
  | create input newId now =>
    simp only [applyDepositOp, List.mem_append, List.mem_singleton] at hd
    rcases hd with hd | rfl
    · exact h0 d hd
    · simp [createDeposit, statusOk]
  | update targetId c e t =>
    simp only [applyDepositOp, updateDeposit, List.mem_map] at hd
    obtain ⟨a, ha, rfl⟩ := hd
    by_cases hcase : a.id = targetId
    · simpa [hcase, applyDepositUpdate] using h0 a ha
    · simpa [hcase] using h0 a ha
  | setStatus targetId newStatus =>
    simp only [applyDepositOp, setDepositStatus, List.mem_map] at hd
    obtain ⟨a, ha, rfl⟩ := hd
    by_cases hcase : a.id = targetId
    · simpa [hcase] using hop
    · simpa [hcase] using h0 a ha
  | softDelete targetId =>
    simp only [applyDepositOp, softDeleteDeposit, setDepositStatus, List.mem_map] at hd
    obtain ⟨a, ha, rfl⟩ := hd
    by_cases hcase : a.id = targetId
    · simp [hcase, statusOk]
    · simpa [hcase] using h0 a ha
  | markSurfaced targetId now =>
    simp only [applyDepositOp, markSurfacedDeposit, List.mem_map] at hd
    obtain ⟨a, ha, rfl⟩ := hd
    by_cases hcase : a.id = targetId
    · simp [hcase, statusOk]
    · simpa [hcase] using h0 a ha
  | surface excludeIds k =>
    exact h0 d hd

theorem statusOk_applyDepositOps (ops : List DepositOp) :
    ∀ ds : List Deposit, (∀ d ∈ ds, statusOk d.status) →
      (∀ op ∈ ops, opStatusOk op) →
      ∀ d ∈ applyDepositOps ops ds, statusOk d.status := by
  induction ops with
  | nil =>
    intro ds h0 _
    simpa [applyDepositOps] using h0
  | cons op rest ih =>
    intro ds h0 hops
    have h1 := applyDepositOp_status h0 (hops op (List.mem_cons_self _ _))
    have h2 : ∀ o ∈ rest, opStatusOk o := fun o ho => hops o (List.mem_cons_of_mem _ ho)
    simpa [applyDepositOps] using ih (applyDepositOp op ds) h1 h2

/-- C1 as stated is false: the set-status route stores any number the caller
sends, here -2, which lies outside {-1} ∪ {0} ∪ positive integers. -/
theorem setStatus_stores_out_of_range :
    applyDepositOp (.setStatus "d1" (-2)) [dActive] = [{ dActive with status := -2 }] ∧
    ¬ statusOk (-2) := ⟨by decide, by decide⟩

/-- C1 amended: when every set-status call in the sequence carries a value in
{-1} ∪ {0} ∪ positive integers, the status of every deposit stays in that set after
any sequence of the public operations; the set-status route itself performs no
range check beyond requiring a number. -/
theorem status_invariant (ops : List DepositOp) (ds : List Deposit)
    (h0 : ∀ d ∈ ds, statusOk d.status) (hops : ∀ op ∈ ops, opStatusOk op) :
    ∀ d ∈ applyDepositOps ops ds, statusOk d.status :=
  statusOk_applyDepositOps ops ds h0 hops

/-- Witness for the amended C1 on a three-operation run. -/
theorem status_invariant_witness :
    statusOk ({ dActive with status := 30, lastSurfacedAt := some 5 } : Deposit).status :=
  status_invariant
    [.softDelete "d3", .setStatus "d2" 7, .markSurfaced "d1" 5]
    [dActive, dCooldown] (by decide) (by decide)
    { dActive with status := 30, lastSurfacedAt := some 5 } (by decide)

/-- C4: a created deposit has status 0 regardless of what the caller sent, and
a successfully created shared deposit has status 0 regardless of the payload of the caller. -/
theorem create_and_share_status_zero (input : InsertDeposit) (newId : String)
    (now : Time) (sinput : InsertSharedDeposit) (conns : List Connection)
    (sds : List SharedDeposit) (sid : String) (snow : Time) :
    (createDeposit input newId now).status = 0 ∧
    (∀ state sd, shareDeposit sinput conns sds sid snow = (state, .ok sd) →
      sd.status = 0) := by
  refine ⟨rfl, ?_⟩
  intro state sd h
  unfold shareDeposit at h
  split at h
  · rw [Prod.mk.injEq] at h
    obtain ⟨-, h2⟩ := h
    cases h2
    rfl
  · rw [Prod.mk.injEq] at h
    exact absurd h.2 (by simp)

/-- Witness for C4: the sample share supplies status 99 and still lands as 0. -/
theorem create_and_share_status_zero_witness : sdSample.status = 0 :=
  (create_and_share_status_zero { content := "x", status := some 7 } "d9" 0
      sInput [cAccepted] [] "s1" 3).2 [sdSample] sdSample (by decide)

/-- C7: sharing is rejected with Forbidden and inserts nothing when no
accepted connection row runs from sender to receiver, and inserts the new row
when one does. -/
theorem share_requires_connection (input : InsertSharedDeposit)
    (conns : List Connection) (sds : List SharedDeposit) (newId : String)
    (now : Time) :
    ((¬ ∃ c ∈ conns, c.userId = input.senderId ∧
        c.connectedUserId = input.receiverId ∧ c.status = "accepted") →
      shareDeposit input conns sds newId now = (sds, .error .forbidden)) ∧
    ((∃ c ∈ conns, c.userId = input.senderId ∧
        c.connectedUserId = input.receiverId ∧ c.status = "accepted") →
      shareDeposit input conns sds newId now =
        (sds ++ [mkSharedDeposit input newId now],
          .ok (mkSharedDeposit input newId now))) := by
  have hiff : (conns.any (fun c =>
      c.userId == input.senderId && c.connectedUserId == input.receiverId &&
      c.status == "accepted")) = true ↔
      ∃ c ∈ conns, c.userId = input.senderId ∧
        c.connectedUserId = input.receiverId ∧ c.status = "accepted" := by
    simp [List.any_eq_true, and_assoc]
  constructor
  · intro h
    unfold shareDeposit
    rw [if_neg (fun hc => h (hiff.mp hc))]
  · intro h
    unfold shareDeposit
    rw [if_pos (hiff.mpr h)]

/-- Witness for C7: sharing with an empty connections table is Forbidden, and
sharing over the sample accepted connection inserts the row. -/
theorem share_requires_connection_witness :
    shareDeposit sInput [] [] "s1" 3 = ([], .error .forbidden) :=
  (share_requires_connection sInput [] [] "s1" 3).1 (by decide)

/-- C5: listing without inactive rows returns exactly the deposits with
status ≠ -1 (cooldown rows included), listing with them returns every deposit,
and both listings are ordered newest-created-first. -/
theorem list_deposits_spec (ds : List Deposit) :
    (∀ d, d ∈ listDeposits false ds ↔ d ∈ ds ∧ d.status ≠ -1) ∧
    (∀ d, d ∈ listDeposits true ds ↔ d ∈ ds) ∧
    List.Sorted newerFirst (listDeposits false ds) ∧
    List.Sorted newerFirst (listDeposits true ds) := by
  refine ⟨?_, ?_, ?_, ?_⟩
  · intro d
    simp [listDeposits, List.mem_insertionSort, List.mem_filter]
  · intro d
    simp [listDeposits, List.mem_insertionSort]
  · simpa [listDeposits] using
      List.sorted_insertionSort newerFirst (ds.filter (fun d => d.status != -1))
  · simpa [listDeposits] using List.sorted_insertionSort newerFirst ds

/-- Witness for C5: the active row is listed, the soft-deleted row is listed
only with `includeInactive`. -/
theorem list_deposits_spec_witness :
    (dActive ∈ listDeposits false [dActive, dInactive]) ∧
    dInactive ∈ listDeposits true [dActive, dInactive] :=
  ⟨((list_deposits_spec [dActive, dInactive]).1 dActive).mpr ⟨by decide, by decide⟩,
   ((list_deposits_spec [dActive, dInactive]).2.1 dInactive).mpr (by decide)⟩

/-- C9: the update route rewrites at most `content`, `emotion` and `tags` of
the matching row — its id, status, lastSurfacedAt, createdAt and media fields
survive, every non-matching row is untouched — and when no row matches it
answers NotFound leaving the table as it was. -/
theorem update_frame (targetId : String) (c : Option String)
    (e : Option (Option String)) (t : Option (List String)) (ds : List Deposit) :
    List.Forall₂ (fun d d' =>
        d'.id = d.id ∧ d'.status = d.status ∧ d'.lastSurfacedAt = d.lastSurfacedAt ∧
        d'.createdAt = d.createdAt ∧ d'.mediaUri = d.mediaUri ∧
        d'.mediaType = d.mediaType ∧ (d.id ≠ targetId → d' = d))
      ds (updateDeposit targetId c e t ds).1 ∧
    ((∀ d ∈ ds, d.id ≠ targetId) →
      updateDeposit targetId c e t ds = (ds, none)) := by
  constructor
  · show List.Forall₂ _ ds (ds.map _)
    rw [List.forall₂_map_right_iff, List.forall₂_same]
    intro a _
    by_cases hcase : a.id = targetId
    · simp [hcase, applyDepositUpdate]
    · simp [hcase]
  · intro h
    unfold updateDeposit
    have hmap : ds.map (fun d =>
        if d.id == targetId then applyDepositUpdate c e t d else d) = ds := by
      have := List.map_congr_left (l := ds)
        (f := fun d => if d.id == targetId then applyDepositUpdate c e t d else d)
        (g := id) (fun a ha => by simp [h a ha])
      simpa using this
    have hfil : ds.filter (fun d => d.id == targetId) = [] :=
      List.filter_eq_nil_iff.mpr (fun a ha => by simp [h a ha])
    simp only [hmap, hfil, List.head?_nil]

/-- Witness for C9: updating an absent id answers NotFound and leaves the
table unchanged. -/
theorem update_frame_witness :
    updateDeposit "zz" (some "new") none none [dActive] = ([dActive], none) :=
  (update_frame "zz" (some "new") none none [dActive]).2 (by decide)

theorem connBetween_append {cs cs' : List Connection} {u v : String} :
    connBetween (cs ++ cs') u v ↔ connBetween cs u v ∨ connBetween cs' u v := by
  simp [connBetween, List.mem_append, or_and_right, exists_or]

theorem connBetween_pair {c1 c2 : Connection} {u v : String} :
    connBetween [c1, c2] u v ↔
      (c1.userId = u ∧ c1.connectedUserId = v) ∨
      (c2.userId = u ∧ c2.connectedUserId = v) := by
  simp [connBetween]

theorem pairInvariant_append_pair {cs : List Connection} {c1 c2 : Connection}
    (h : pairInvariant cs) (h12 : c2.userId = c1.connectedUserId)
    (h21 : c2.connectedUserId = c1.userId) :
    pairInvariant (cs ++ [c1, c2]) := by
  intro u v
  rw [connBetween_append, connBetween_pair, connBetween_append, connBetween_pair,
    h u v, h12, h21]
  tauto

theorem connBetween_filter_pair {cs : List Connection} {a b u v : String} :
    connBetween (cs.filter (fun c2 =>
        !((c2.userId == a && c2.connectedUserId == b) ||
          (c2.userId == b && c2.connectedUserId == a)))) u v ↔
      connBetween cs u v ∧ ¬((u = a ∧ v = b) ∨ (u = b ∧ v = a)) := by
  unfold connBetween
  constructor
  · rintro ⟨c, hc, hu, hv⟩
    rw [List.mem_filter] at hc
    obtain ⟨hmem, hpred⟩ := hc
    subst hu
    subst hv
    simp at hpred
    exact ⟨⟨c, hmem, rfl, rfl⟩, by tauto⟩
  · rintro ⟨⟨c, hmem, hu, hv⟩, hnot⟩
    subst hu
    subst hv
    refine ⟨c, ?_, rfl, rfl⟩
    rw [List.mem_filter]
    refine ⟨hmem, ?_⟩
    simp
    tauto

theorem pairInvariant_filter_pair {cs : List Connection} (h : pairInvariant cs)
    (a b : String) :
    pairInvariant (cs.filter (fun c2 =>
        !((c2.userId == a && c2.connectedUserId == b) ||
          (c2.userId == b && c2.connectedUserId == a)))) := by
  intro u v
  rw [connBetween_filter_pair, connBetween_filter_pair, h u v]
  constructor
  · rintro ⟨hc, hn⟩
    exact ⟨hc, fun hh => hn (by tauto)⟩
  · rintro ⟨hc, hn⟩
    exact ⟨hc, fun hh => hn (by tauto)⟩

/-- C6: a successful invite accept appends exactly two connection rows, one
per direction and both `accepted`; a successful removal leaves no row between
the pair in either direction; and both operations preserve the
both-rows-or-neither invariant. -/
theorem circle_pair_spec (code userId id1 id2 cid : String) (now : Time)
    (st : CircleState) :
    (∀ st' c1, acceptInvite code userId id1 id2 now st = (st', .ok c1) →
      st'.conns = st.conns ++
        [{ id := id1, userId := c1.userId, connectedUserId := userId,
           status := "accepted", createdAt := now, acceptedAt := some now },
         { id := id2, userId := userId, connectedUserId := c1.userId,
           status := "accepted", createdAt := now, acceptedAt := some now }]) ∧
    (∀ st', removeConnection cid st = (st', .ok ()) →
      ∃ c ∈ st.conns, c.id = cid ∧
        ¬ connBetween st'.conns c.userId c.connectedUserId ∧
        ¬ connBetween st'.conns c.connectedUserId c.userId) ∧
    (pairInvariant st.conns →
      pairInvariant (acceptInvite code userId id1 id2 now st).1.conns ∧
      pairInvariant (removeConnection cid st).1.conns) := by
  refine ⟨?_, ?_, ?_⟩
  · intro st' c1 h
    unfold acceptInvite at h
    split at h
    · simp at h
    · split_ifs at h with h1 h2 h3
      · simp at h
      · simp at h
      · simp at h
      · simp only [Prod.mk.injEq, Except.ok.injEq] at h
        obtain ⟨hst, hc⟩ := h
        subst hst
        subst hc
        rfl
  · intro st' h
    unfold removeConnection at h
    split at h
    · simp at h
    · rename_i c hh
      simp only [Prod.mk.injEq] at h
      obtain ⟨hst, -⟩ := h
      subst hst
      have hcmem := List.mem_of_mem_head? hh
      rw [List.mem_filter] at hcmem
      refine ⟨c, hcmem.1, by simpa using hcmem.2, ?_, ?_⟩
      · rw [show (CircleState.mk st.invites _).conns = _ from rfl,
          connBetween_filter_pair]
        rintro ⟨-, hn⟩
        exact hn (Or.inl ⟨rfl, rfl⟩)
      · rw [show (CircleState.mk st.invites _).conns = _ from rfl,
          connBetween_filter_pair]
        rintro ⟨-, hn⟩
        exact hn (Or.inr ⟨rfl, rfl⟩)
  · intro hinv
    constructor
    · unfold acceptInvite
      split
      · exact hinv
      · split_ifs with h1 h2 h3
        · exact hinv
        · exact hinv
        · exact hinv
        · exact pairInvariant_append_pair hinv rfl rfl
    · unfold removeConnection
      split
      · exact hinv
      · rename_i c hh
        exact pairInvariant_filter_pair hinv c.userId c.connectedUserId

/-- Witness for C6: accepting the sample invite turns the empty connection
table into the two directional rows. -/
theorem circle_pair_spec_witness :
    st2.conns = st1.conns ++
      [{ id := "c1", userId := cRow1.userId, connectedUserId := "u2",
         status := "accepted", createdAt := 5, acceptedAt := some 5 },
       { id := "c2", userId := "u2", connectedUserId := cRow1.userId,
         status := "accepted", createdAt := 5, acceptedAt := some 5 }] :=
  (circle_pair_spec "code1" "u2" "c1" "c2" "zz" 5 st1).1 st2 cRow1 (by decide)

theorem contains_sentIds_iff {userId : String} {sds : List SharedDeposit}
    {x : String} :
    ((sds.filter (fun s => s.senderId == userId)).map (fun s => s.id)).contains x =
      true ↔ ∃ s ∈ sds, s.senderId = userId ∧ s.id = x := by
  simp [List.elem_iff, List.mem_map, List.mem_filter, and_assoc]

theorem senderSummary_eq_counts (userId : String) (w : Int) (now : Time)
    (sds : List SharedDeposit) (usages : List SharedDepositUsage) (hw : w ≠ 0) :
    senderSummary userId (some w) now sds usages =
      { totalUses := usages.countP (fun u =>
          decide ((∃ s ∈ sds, s.senderId = userId ∧ s.id = u.sharedDepositId) ∧
            now - w * 7 ≤ u.usedAt)),
        helpfulUses := usages.countP (fun u =>
          decide ((∃ s ∈ sds, s.senderId = userId ∧ s.id = u.sharedDepositId) ∧
            now - w * 7 ≤ u.usedAt ∧ u.helpful = some true)),
        weeks := w } := by
  have hew : effectiveWeeks (some w) = w := by simp [effectiveWeeks, hw]
  unfold senderSummary
  simp only [hew]
  split
  · rename_i hempty
    have hnone : ∀ s ∈ sds, s.senderId ≠ userId := by
      rw [List.isEmpty_iff, List.map_eq_nil_iff, List.filter_eq_nil_iff] at hempty
      intro s hs
      simpa using hempty s hs
    have h1 : usages.countP (fun u =>
        decide ((∃ s ∈ sds, s.senderId = userId ∧ s.id = u.sharedDepositId) ∧
          now - w * 7 ≤ u.usedAt)) = 0 := by
      rw [List.countP_eq_zero]
      intro u _
      simp only [decide_eq_true_eq]
      rintro ⟨⟨s, hs, hsend, -⟩, -⟩
      exact hnone s hs hsend
    have h2 : usages.countP (fun u =>
        decide ((∃ s ∈ sds, s.senderId = userId ∧ s.id = u.sharedDepositId) ∧
          now - w * 7 ≤ u.usedAt ∧ u.helpful = some true)) = 0 := by
      rw [List.countP_eq_zero]
      intro u _
      simp only [decide_eq_true_eq]
      rintro ⟨⟨s, hs, hsend, -⟩, -⟩
      exact hnone s hs hsend
    rw [h1, h2]
  · congr 1
    · rw [← List.countP_eq_length_filter]
      refine List.countP_congr ?_
      intro u _
      simp only [Bool.and_eq_true, decide_eq_true_eq, contains_sentIds_iff]
    · rw [List.filter_filter, ← List.countP_eq_length_filter]
      refine List.countP_congr ?_
      intro u _
      simp only [Bool.and_eq_true, decide_eq_true_eq, contains_sentIds_iff,
        beq_iff_eq]
      tauto

theorem senderSummary_default (userId : String) (now : Time)
    (sds : List SharedDeposit) (usages : List SharedDepositUsage) :
    senderSummary userId none now sds usages =
      senderSummary userId (some 2) now sds usages := by
  unfold senderSummary
  simp [effectiveWeeks]

theorem senderSummary_weeks (userId : String) (wp : Option Int) (now : Time)
    (sds : List SharedDeposit) (usages : List SharedDepositUsage) :
    (senderSummary userId wp now sds usages).weeks = effectiveWeeks wp := by
  by_cases h : ((sds.filter (fun s => s.senderId == userId)).map
      (fun s => s.id)).isEmpty
  · simp [senderSummary, h]
  · simp [senderSummary, h]

/-- C8: for a positive requested week count, the sender summary counts exactly
the usage rows of the shared deposits the user sent dated within the window, the
helpful subset among them, and echoes the week count; a sender with no shared
deposits gets zero counts rather than an error; a missing week parameter means
2. -/
theorem sender_summary_spec (userId : String) (w : Int) (now : Time)
    (sds : List SharedDeposit) (usages : List SharedDepositUsage) (hw : 0 < w) :
    (senderSummary userId (some w) now sds usages).totalUses =
      usages.countP (fun u =>
        decide ((∃ s ∈ sds, s.senderId = userId ∧ s.id = u.sharedDepositId) ∧
          now - w * 7 ≤ u.usedAt)) ∧
    (senderSummary userId (some w) now sds usages).helpfulUses =
      usages.countP (fun u =>
        decide ((∃ s ∈ sds, s.senderId = userId ∧ s.id = u.sharedDepositId) ∧
          now - w * 7 ≤ u.usedAt ∧ u.helpful = some true)) ∧
    (senderSummary userId (some w) now sds usages).weeks = w ∧
    ((∀ s ∈ sds, s.senderId ≠ userId) →
      senderSummary userId (some w) now sds usages =
        { totalUses := 0, helpfulUses := 0, weeks := w }) ∧
    senderSummary userId none now sds usages =
      senderSummary userId (some 2) now sds usages := by
  have hne : w ≠ 0 := by omega
  rw [senderSummary_eq_counts userId w now sds usages hne]
  refine ⟨rfl, rfl, rfl, ?_, senderSummary_default userId now sds usages⟩
  intro h
  have hz1 : usages.countP (fun u =>
      decide ((∃ s ∈ sds, s.senderId = userId ∧ s.id = u.sharedDepositId) ∧
        now - w * 7 ≤ u.usedAt)) = 0 := by
    rw [List.countP_eq_zero]
    intro u _
    simp only [decide_eq_true_eq]
    rintro ⟨⟨s, hs, hsend, -⟩, -⟩
    exact h s hs hsend
  have hz2 : usages.countP (fun u =>
      decide ((∃ s ∈ sds, s.senderId = userId ∧ s.id = u.sharedDepositId) ∧
        now - w * 7 ≤ u.usedAt ∧ u.helpful = some true)) = 0 := by
    rw [List.countP_eq_zero]
    intro u _
    simp only [decide_eq_true_eq]
    rintro ⟨⟨s, hs, hsend, -⟩, -⟩
    exact h s hs hsend
  rw [hz1, hz2]

/-- Witness for C8 on the sample ledger. -/
theorem sender_summary_spec_witness :
    (senderSummary "u1" (some 2) 55 [sdSample] [usageSample]).weeks = 2 :=
  (sender_summary_spec "u1" 2 55 [sdSample] [usageSample] (by decide)).2.2.1

/-- C10: a missing week parameter and an explicit 0 both fall back to 2; a
negative value is used as-is, which puts the cutoff in the future and so
yields zero counts whenever no usage timestamp lies in the future. -/
theorem weeks_param_handling (userId : String) (now : Time) (w : Int)
    (sds : List SharedDeposit) (usages : List SharedDepositUsage) :
    (senderSummary userId none now sds usages).weeks = 2 ∧
    (senderSummary userId (some 0) now sds usages).weeks = 2 ∧
    (w < 0 → (∀ u ∈ usages, u.usedAt ≤ now) →
      (senderSummary userId (some w) now sds usages).totalUses = 0 ∧
      (senderSummary userId (some w) now sds usages).helpfulUses = 0 ∧
      (senderSummary userId (some w) now sds usages).weeks = w) := by
  refine ⟨?_, ?_, ?_⟩
  · rw [senderSummary_weeks]
    rfl
  · rw [senderSummary_weeks]
    rfl
  · intro hneg husage
    have hne : w ≠ 0 := by omega
    rw [senderSummary_eq_counts userId w now sds usages hne]
    have hz : ∀ u ∈ usages, ¬(now - w * 7 ≤ u.usedAt) := by
      intro u hu
      have h2 := husage u hu
      intro hc
      nlinarith
    refine ⟨List.countP_eq_zero.mpr ?_, List.countP_eq_zero.mpr ?_, rfl⟩
    · intro u hu
      simp only [decide_eq_true_eq]
      rintro ⟨-, hle⟩
      exact hz u hu hle
    · intro u hu
      simp only [decide_eq_true_eq]
      rintro ⟨-, hle, -⟩
      exact hz u hu hle

/-- Witness for C10: requesting -3 weeks over a past-dated ledger yields zero
counts and echoes -3. -/
theorem weeks_param_handling_witness :
    (senderSummary "u1" (some (-3)) 100 [sdSample] [usageSample]).totalUses = 0 ∧
    (senderSummary "u1" (some (-3)) 100 [sdSample] [usageSample]).helpfulUses = 0 ∧
    (senderSummary "u1" (some (-3)) 100 [sdSample] [usageSample]).weeks = -3 :=
  (weeks_param_handling "u1" 100 (-3) [sdSample] [usageSample]).2.2 (by decide)
    (by decide)

end HappinessReserve
